import Mathlib

/-!
Verification development for the MM_StoryAgent repository.

The repository orchestrates a multi-modal story pipeline:
`modality_agents/story_agent.py` (outline validation, chapter expansion with
caller-level retries and deterministic fallbacks), `mm_story_agent.py`
(the fan-out scheduler, result table, manifest writer), and
`modality_agents/speech_agent.py` (the speech worker).

The Python code is shallowly embedded: JSON values produced by `json.loads`
become the inductive `Json`; Python exceptions that can escape a function are
made explicit with `Except PyError`; the external LLM / TTS backends are
abstracted as oracles (a function from attempt index to the backend's reply),
which is faithful because the code treats them as opaque calls returning a
payload plus a success flag.
-/

namespace MMStory

/-- JSON values as produced by Python `json.loads`.  Numbers are modelled as
integers (no claim depends on float payloads). -/
inductive Json where
  | null
  | bool (b : Bool)
  | num (n : Int)
  | str (s : String)
  | arr (elems : List Json)
  | obj (fields : List (String × Json))

/-- The Python exceptions that matter to the embedded code paths. -/
inductive PyError where
  | jsonDecodeError
  | attributeError
  | typeError
  | keyError
  | indexError
  | valueError
deriving DecidableEq, Repr

/-- First-match key lookup in a Python dict (objects coming from `json.loads`
have distinct keys, so first-match and last-match coincide on all inputs the
code actually sees). -/
def lookupKey : List (String × Json) → String → Option Json
  | [], _ => none
  | (k, v) :: rest, key => if k = key then some v else lookupKey rest key

/-- The key view of a Python dict. -/
def keyList (fields : List (String × Json)) : List String :=
  fields.map Prod.fst

/-- Python set equality between `dict.keys()` and a set literal of strings
(`outline.keys() != {...}` compares as sets). -/
def sameKeySet (ks target : List String) : Bool :=
  ks.all (fun k => target.contains k) && target.all (fun k => ks.contains k)

/-- Python subscription `v[key]` with a string key: succeeds only on a dict
that has the key; everything else raises (`KeyError` for a dict without the
key, `TypeError` for lists/strings/others). -/
def pySubscript (v : Json) (key : String) : Except PyError Json :=
  match v with
  | .obj fields =>
    match lookupKey fields key with
    | some x => .ok x
    | none => .error .keyError
  | _ => .error .typeError

/-- Python subscription `v[i]` with an integer index. -/
def pyIndex (v : Json) (i : Nat) : Except PyError Json :=
  match v with
  | .arr xs =>
    match xs.get? i with
    | some x => .ok x
    | none => .error .indexError
  | .str s =>
    match s.toList.get? i with
    | some c => .ok (.str c.toString)
    | none => .error .indexError
  | .obj _ => .error .keyError
  | _ => .error .typeError

/-- Python iteration `for x in v`: lists yield their elements, dicts their
keys, strings their characters; numbers, booleans and `None` raise
`TypeError`. -/
def pyIter : Json → Except PyError (List Json)
  | .arr xs => .ok xs
  | .obj fields => .ok (fields.map (fun kv => Json.str kv.1))
  | .str s => .ok (s.toList.map (fun c => Json.str c.toString))
  | _ => .error .typeError

/-- `chapter.keys() != {"chapter_title", "chapter_summary"}` from
`json_parse_outline`: calling `.keys()` on a non-dict raises
`AttributeError`. -/
def chapterKeysOk : Json → Except PyError Bool
  | .obj fields => .ok (sameKeySet (keyList fields) ["chapter_title", "chapter_summary"])
  | _ => .error .attributeError

/-- The `for chapter in outline["story_outline"]` check loop of
`json_parse_outline`: returns `False` at the first chapter whose key set is
wrong, propagates the `AttributeError` of `.keys()` on a non-dict chapter. -/
def checkChapters : List Json → Except PyError Bool
  | [] => .ok true
  | c :: rest =>
    match chapterKeysOk c with
    | .ok true => checkChapters rest
    | .ok false => .ok false
    | .error e => .error e

/-- Embedding of `json_parse_outline` (story_agent.py, lines 14-27).  The
input is the result of `json.loads` on the stripped payload: `none` models a
`JSONDecodeError`, which the function catches and turns into `False`.  Any
other exception raised inside the `try` block is not caught (the handler only
names `json.decoder.JSONDecodeError`) and is modelled as `.error`.  The
`outline["story_outline"]` subscription is inlined on the dict branch. -/
def json_parse_outline (parsed : Option Json) : Except PyError Bool :=
  match parsed with
  | none => .ok false
  | some (.obj fields) =>
    if sameKeySet (keyList fields) ["story_title", "story_outline"] then
      match lookupKey fields "story_outline" with
      | some so =>
        match pyIter so with
        | .ok chapters => checkChapters chapters
        | .error e => .error e
      | none => .error .keyError
    else .ok false
  | some _ => .ok false

/-- The shape `json_parse_outline` accepts, stated the way the spec words it:
the payload parses, is an object with exactly the two top-level keys, and
every entry obtained by iterating the `story_outline` value is an object with
exactly the two chapter keys. -/
def AcceptShape (p : Option Json) : Prop :=
  ∃ fields so chapters, p = some (.obj fields)
    ∧ sameKeySet (keyList fields) ["story_title", "story_outline"] = true
    ∧ lookupKey fields "story_outline" = some so
    ∧ pyIter so = .ok chapters
    ∧ ∀ c ∈ chapters, ∃ cf, c = .obj cf
        ∧ sameKeySet (keyList cf) ["chapter_title", "chapter_summary"] = true

theorem checkChapters_ok_true_iff (cs : List Json) :
    checkChapters cs = .ok true ↔
      ∀ c ∈ cs, ∃ cf, c = .obj cf
        ∧ sameKeySet (keyList cf) ["chapter_title", "chapter_summary"] = true := by
  induction cs with
  | nil => simp [checkChapters]
  | cons c rest ih =>
    constructor
    · intro h
      cases c with
      | obj cf =>
        cases hsk : sameKeySet (keyList cf) ["chapter_title", "chapter_summary"] with
        | true =>
          simp only [checkChapters, chapterKeysOk, hsk] at h
          intro x hx
          rcases List.mem_cons.mp hx with hx | hx
          · exact ⟨cf, by rw [hx], hsk⟩
          · exact (ih.mp h) x hx
        | false =>
          simp [checkChapters, chapterKeysOk, hsk] at h
      | null => simp [checkChapters, chapterKeysOk] at h
      | bool b => simp [checkChapters, chapterKeysOk] at h
      | num n => simp [checkChapters, chapterKeysOk] at h
      | str s => simp [checkChapters, chapterKeysOk] at h
      | arr xs => simp [checkChapters, chapterKeysOk] at h
    · intro h
      obtain ⟨cf, hcf, hk⟩ := h c (List.mem_cons_self c rest)
      subst hcf
      simp only [checkChapters, chapterKeysOk, hk]
      exact ih.mpr (fun x hx => h x (List.mem_cons_of_mem _ hx))

theorem lookupKey_isSome_of_contains (fields : List (String × Json)) (key : String)
    (h : (keyList fields).contains key = true) :
    ∃ v, lookupKey fields key = some v := by
  induction fields with
  | nil => simp [keyList] at h
  | cons kv rest ih =>
    obtain ⟨k, v⟩ := kv
    by_cases hk : k = key
    · exact ⟨v, by simp [lookupKey, hk]⟩
    · simp only [keyList, List.map_cons, List.contains_cons] at h
      have hrest : (keyList rest).contains key = true := by
        rcases Bool.or_eq_true _ _ |>.mp h with h1 | h1
        · exact absurd (beq_iff_eq.mp h1).symm hk
        · exact h1
      obtain ⟨w, hw⟩ := ih hrest
      exact ⟨w, by simp [lookupKey, hk, hw]⟩

theorem sameKeySet_contains_right (ks target : List String) (k : String)
    (h : sameKeySet ks target = true) (hk : target.contains k = true) :
    ks.contains k = true := by
  simp only [sameKeySet, Bool.and_eq_true, List.all_eq_true] at h
  have := h.2 k (by simpa using hk)
  simpa using this

/-- Acceptance characterization of `json_parse_outline`. -/
theorem json_parse_outline_accept_iff (p : Option Json) :
    json_parse_outline p = .ok true ↔ AcceptShape p := by
  constructor
  · intro h
    cases p with
    | none => simp [json_parse_outline] at h
    | some v =>
      cases v with
      | obj fields =>
        simp only [json_parse_outline] at h
        by_cases hk : sameKeySet (keyList fields) ["story_title", "story_outline"] = true
        · rw [if_pos hk] at h
          have hcont : (keyList fields).contains "story_outline" = true := by
            apply sameKeySet_contains_right _ _ _ hk
            simp [List.contains_cons]
          obtain ⟨so, hso⟩ := lookupKey_isSome_of_contains fields "story_outline" hcont
          simp only [hso] at h
          cases hiter : pyIter so with
          | ok chapters =>
            simp only [hiter] at h
            exact ⟨fields, so, chapters, rfl, hk, hso, hiter,
              (checkChapters_ok_true_iff chapters).mp h⟩
          | error e => simp [hiter] at h
        · rw [if_neg hk] at h
          simp at h
      | null => simp [json_parse_outline] at h
      | bool b => simp [json_parse_outline] at h
      | num n => simp [json_parse_outline] at h
      | str s => simp [json_parse_outline] at h
      | arr xs => simp [json_parse_outline] at h
  · rintro ⟨fields, so, chapters, hp, hk, hso, hiter, hch⟩
    subst hp
    simp only [json_parse_outline, hk, if_true, hso, hiter]
    exact (checkChapters_ok_true_iff chapters).mpr hch

theorem checkChapters_error (cs : List Json) (e : PyError)
    (h : checkChapters cs = .error e) : e = .attributeError := by
  induction cs with
  | nil => simp [checkChapters] at h
  | cons c rest ih =>
    cases c with
    | obj cf =>
      cases hsk : sameKeySet (keyList cf) ["chapter_title", "chapter_summary"] with
      | true =>
        simp only [checkChapters, chapterKeysOk, hsk] at h
        exact ih h
      | false => simp [checkChapters, chapterKeysOk, hsk] at h
    | null =>
      simp only [checkChapters, chapterKeysOk, Except.error.injEq] at h
      exact h.symm
    | bool b =>
      simp only [checkChapters, chapterKeysOk, Except.error.injEq] at h
      exact h.symm
    | num n =>
      simp only [checkChapters, chapterKeysOk, Except.error.injEq] at h
      exact h.symm
    | str s =>
      simp only [checkChapters, chapterKeysOk, Except.error.injEq] at h
      exact h.symm
    | arr xs =>
      simp only [checkChapters, chapterKeysOk, Except.error.injEq] at h
      exact h.symm

/-- When `json_parse_outline` raises, the error is a `TypeError` or an
`AttributeError` and the top level had already validated (object with exactly
the two top-level keys). -/
theorem json_parse_outline_error (p : Option Json) (e : PyError)
    (h : json_parse_outline p = .error e) :
    (e = .typeError ∨ e = .attributeError)
      ∧ ∃ fields, p = some (.obj fields)
          ∧ sameKeySet (keyList fields) ["story_title", "story_outline"] = true := by
  cases p with
  | none => simp [json_parse_outline] at h
  | some v =>
    cases v with
    | obj fields =>
      simp only [json_parse_outline] at h
      by_cases hk : sameKeySet (keyList fields) ["story_title", "story_outline"] = true
      · rw [if_pos hk] at h
        refine ⟨?_, fields, rfl, hk⟩
        have hcont : (keyList fields).contains "story_outline" = true := by
          apply sameKeySet_contains_right _ _ _ hk
          simp [List.contains_cons]
        obtain ⟨so, hso⟩ := lookupKey_isSome_of_contains fields "story_outline" hcont
        simp only [hso] at h
        cases hiter : pyIter so with
        | ok chapters =>
          simp only [hiter] at h
          exact Or.inr (checkChapters_error chapters e h)
        | error e2 =>
          simp only [hiter, Except.error.injEq] at h
          subst h
          left
          cases so with
          | null =>
            simp only [pyIter, Except.error.injEq] at hiter
            exact hiter.symm
          | bool b =>
            simp only [pyIter, Except.error.injEq] at hiter
            exact hiter.symm
          | num n =>
            simp only [pyIter, Except.error.injEq] at hiter
            exact hiter.symm
          | str s => simp [pyIter] at hiter
          | arr xs => simp [pyIter] at hiter
          | obj fs => simp [pyIter] at hiter
      · rw [if_neg hk] at h
        simp at h
    | null => simp [json_parse_outline] at h
    | bool b => simp [json_parse_outline] at h
    | num n => simp [json_parse_outline] at h
    | str s => simp [json_parse_outline] at h
    | arr xs => simp [json_parse_outline] at h

/-- Claim C1 (corrected): `json_parse_outline` accepts exactly the
two-top-level-keys / two-chapter-keys shape, and unparsable text, a
non-object top level, or wrong key sets at the top level are reported as a
validation failure (`False`); however, when the `story_outline` value is not
iterable or an iterated chapter entry is not an object, a
`TypeError`/`AttributeError` escapes instead of a validation failure. -/
theorem claim_C1 (p : Option Json) :
    (json_parse_outline p = .ok true ↔ AcceptShape p)
  ∧ (p = none → json_parse_outline p = .ok false)
  ∧ (∀ v, p = some v → (∀ fields, v ≠ .obj fields) → json_parse_outline p = .ok false)
  ∧ (∀ fields, p = some (.obj fields) →
      sameKeySet (keyList fields) ["story_title", "story_outline"] = false →
      json_parse_outline p = .ok false)
  ∧ (∀ e, json_parse_outline p = .error e →
      (e = .typeError ∨ e = .attributeError)
        ∧ ∃ fields, p = some (.obj fields)
            ∧ sameKeySet (keyList fields) ["story_title", "story_outline"] = true) := by
  refine ⟨json_parse_outline_accept_iff p, ?_, ?_, ?_, ?_⟩
  · intro hp
    subst hp
    rfl
  · intro v hp hv
    subst hp
    cases v with
    | obj fields => exact absurd rfl (hv fields)
    | null => rfl
    | bool b => rfl
    | num n => rfl
    | str s => rfl
    | arr xs => rfl
  · intro fields hp hsk
    subst hp
    simp [json_parse_outline, hsk]
  · intro e he
    exact json_parse_outline_error p e he

/-- Witness for `claim_C1`: unparsable text is reported as a validation
failure. -/
theorem claim_C1_witness : json_parse_outline none = .ok false :=
  (claim_C1 none).2.1 rfl

/-- Counterexample for claim C1 as frozen: the outline text
`{"story_title": "t", "story_outline": [1]}` parses, has exactly the two
top-level keys, but its chapter entry `1` is not an object; the claim says
this is reported as a validation failure, while the code raises an
`AttributeError` (`chapter.keys()` on an `int`) that the
`except json.decoder.JSONDecodeError` handler does not catch. -/
theorem claim_C1_counterexample :
    json_parse_outline
        (some (.obj [("story_title", .str "t"), ("story_outline", .arr [.num 1])]))
      = .error .attributeError := rfl

/-! ## Chapter expansion: `generate_story_from_outline` (story_agent.py, lines 135-195)

The per-chapter LLM call is abstracted as an oracle from attempt number to
the reply `(chapter_detail, success)`.  Since the claims only depend on the
success flag and on what `eval(chapter_detail)` produces, the payload is
represented by its evaluation outcome. -/

/-- One element of the Python list produced by `eval(chapter_detail)`:
a string, or something else (on which `.strip()` raises). -/
inductive PyEvalItem where
  | pystr (s : String)
  | nonstr

/-- The outcome of `eval(chapter_detail)` in the success branch. -/
inductive PyEvalResult where
  | raisesExn
  | pylist (items : List PyEvalItem)
  | nonlist

/-- The reply of one `chapter_writer.call(...)` invocation: the success flag
returned by the client together with the evaluation outcome of the payload. -/
structure ChapterReply where
  success : Bool
  evalRes : PyEvalResult

/-- The caller-level retry loop `while not success and retry_count < 3` of
`generate_story_from_outline`, with the seed trace made explicit: `fuel` is
`3 - retry_count` (the loop bound), `rc` is `retry_count`, `acc` is the list
of sampling seeds passed so far (`none` = no seed argument, as in the initial
call; `some (rng k)` = the k-th `random.randint(0, 100000)` draw). -/
def retryWhileTr (oracle : Nat → ChapterReply) (rng : Nat → Nat) :
    Nat → Nat → ChapterReply → List (Option Nat) → List (Option Nat) × ChapterReply
  | 0, _, reply, acc => (acc, reply)
  | fuel + 1, rc, reply, acc =>
    if reply.success then (acc, reply)
    else retryWhileTr oracle rng fuel (rc + 1) (oracle (rc + 1)) (acc ++ [some (rng rc)])

/-- One chapter's full call sequence: the initial no-seed invocation
(`oracle 0`) followed by the retry loop; returns the seed trace of all
invocations made and the final reply. -/
def chapterTrace (oracle : Nat → ChapterReply) (rng : Nat → Nat) :
    List (Option Nat) × ChapterReply :=
  retryWhileTr oracle rng 3 0 (oracle 0) [none]

/-- The reply the chapter loop ends with. -/
def chapterReplyOf (oracle : Nat → ChapterReply) (rng : Nat → Nat) : ChapterReply :=
  (chapterTrace oracle rng).2

mutual
/-- Python `repr` of a JSON value, used by `str()` for container elements.
Only the string/leaf cases matter to the claims (chapter titles are strings);
the container rendering is a faithful-enough structural rendering. -/
def pyRepr : Json → String
  | .null => "None"
  | .bool b => if b then "True" else "False"
  | .num n => toString n
  | .str s => "'" ++ s ++ "'"
  | .arr xs => "[" ++ pyReprList xs ++ "]"
  | .obj fs => "\x7b" ++ pyReprFields fs ++ "\x7d"

def pyReprList : List Json → String
  | [] => ""
  | [x] => pyRepr x
  | x :: y :: rest => pyRepr x ++ ", " ++ pyReprList (y :: rest)

def pyReprFields : List (String × Json) → String
  | [] => ""
  | [(k, v)] => "'" ++ k ++ "': " ++ pyRepr v
  | (k, v) :: kv :: rest => "'" ++ k ++ "': " ++ pyRepr v ++ ", " ++ pyReprFields (kv :: rest)
end

/-- Python `str(v)` as used in an f-string: strings are interpolated
verbatim, other values via their `repr`-style rendering. -/
def pyStr : Json → String
  | .str s => s
  | .null => pyRepr .null
  | .bool b => pyRepr (.bool b)
  | .num n => pyRepr (.num n)
  | .arr xs => pyRepr (.arr xs)
  | .obj fs => pyRepr (.obj fs)

/-- The default page `f"第{idx+1}章: {chapter['chapter_title']}"`; the
subscription raises if the chapter is not a dict with that key. -/
def defaultChapterPage (idx : Nat) (chapter : Json) : Except PyError String :=
  match pySubscript chapter "chapter_title" with
  | .ok t => .ok ("第" ++ toString (idx + 1) ++ "章: " ++ pyStr t)
  | .error e => .error e

/-- The `[page.strip() for page in pages]` comprehension: `none` models the
`AttributeError` raised at the first non-string element (caught by the bare
`except` of the success branch). -/
def stripItems : List PyEvalItem → Option (List String)
  | [] => some []
  | .pystr s :: rest =>
    match stripItems rest with
    | some l => some (s.trim :: l)
    | none => none
  | .nonstr :: _ => none

/-- What one chapter contributes to `all_pages` (story_agent.py, lines
178-193): on success a stripped page list, or a single default page when
`eval` fails / returns a non-list / the strip comprehension raises (bare
`except`); on terminal failure the two placeholder pages. -/
def chapterPages (idx : Nat) (chapter : Json) (reply : ChapterReply) :
    Except PyError (List String) :=
  if reply.success then
    match reply.evalRes with
    | .pylist items =>
      match stripItems items with
      | some pages => .ok pages
      | none =>
        match defaultChapterPage idx chapter with
        | .ok p => .ok [p]
        | .error e => .error e
    | .nonlist =>
      match defaultChapterPage idx chapter with
      | .ok p => .ok [p]
      | .error e => .error e
    | .raisesExn =>
      match defaultChapterPage idx chapter with
      | .ok p => .ok [p]
      | .error e => .error e
  else
    match defaultChapterPage idx chapter with
    | .ok p => .ok [p, "基于数据的分析内容"]
    | .error e => .error e

/-- The chapter loop of `generate_story_from_outline`: `idx` is the
`enumerate` counter, `acc` is `all_pages`.  The oracle is indexed per chapter
and per attempt; `rng` provides the per-chapter `random.randint` draws. -/
def storyGo (oracle : Nat → Nat → ChapterReply) (rng : Nat → Nat → Nat) :
    List Json → Nat → List String → Except PyError (List String)
  | [], _, acc => .ok acc
  | chapter :: rest, idx, acc =>
    match chapterPages idx chapter (chapterReplyOf (oracle idx) (rng idx)) with
    | .ok ps => storyGo oracle rng rest (idx + 1) (acc ++ ps)
    | .error e => .error e

/-- Embedding of `generate_story_from_outline` applied to the chapter list
`outline["story_outline"]`. -/
def generate_story_from_outline (oracle : Nat → Nat → ChapterReply)
    (rng : Nat → Nat → Nat) (chapters : List Json) : Except PyError (List String) :=
  storyGo oracle rng chapters 0 []


/-- Closed form of the per-chapter call sequence: the loop stops at the first
success and performs at most three retries. -/
theorem chapterTrace_closed (oracle : Nat → ChapterReply) (rng : Nat → Nat) :
    chapterTrace oracle rng =
      if (oracle 0).success then ([none], oracle 0)
      else if (oracle 1).success then ([none, some (rng 0)], oracle 1)
      else if (oracle 2).success then ([none, some (rng 0), some (rng 1)], oracle 2)
      else ([none, some (rng 0), some (rng 1), some (rng 2)], oracle 3) := by
  unfold chapterTrace
  cases h0 : (oracle 0).success <;> cases h1 : (oracle 1).success <;>
    cases h2 : (oracle 2).success <;>
      simp [retryWhileTr, h0, h1, h2]

/-- Claim C2 (confirmed): per chapter, the story writer makes at most 4
caller-level invocations (1 initial + at most 3 retries); the initial call
passes no seed, the k-th retry passes the freshly drawn seed `rng k`; every
invocation except possibly the last one failed, so a success stops the
retries. -/
theorem claim_C2 (oracle : Nat → ChapterReply) (rng : Nat → Nat) :
    (chapterTrace oracle rng).1.length ≤ 4
  ∧ (chapterTrace oracle rng).1.get? 0 = some none
  ∧ (∀ k, k + 1 < (chapterTrace oracle rng).1.length → (oracle k).success = false)
  ∧ (∀ k, k + 1 < (chapterTrace oracle rng).1.length →
      (chapterTrace oracle rng).1.get? (k + 1) = some (some (rng k)))
  ∧ (∀ k, (oracle k).success = true → (chapterTrace oracle rng).1.length ≤ k + 1) := by
  rw [chapterTrace_closed]
  split_ifs with h0 h1 h2
  · refine ⟨by simp, by simp, ?_, ?_, ?_⟩
    · intro k hk
      simp at hk
    · intro k hk
      simp at hk
    · intro k _
      simp
  · rw [Bool.not_eq_true] at h0
    refine ⟨by simp, by simp, ?_, ?_, ?_⟩
    · intro k hk
      simp at hk
      have hz : k = 0 := by omega
      subst hz
      exact h0
    · intro k hk
      simp at hk
      have hz : k = 0 := by omega
      subst hz
      simp
    · intro k hs
      simp only [List.length_cons, List.length_nil]
      by_contra hlt
      push_neg at hlt
      have hz : k = 0 := by omega
      subst hz
      rw [h0] at hs
      exact Bool.false_ne_true hs
  · rw [Bool.not_eq_true] at h0
    rw [Bool.not_eq_true] at h1
    refine ⟨by simp, by simp, ?_, ?_, ?_⟩
    · intro k hk
      simp at hk
      have hz : k = 0 ∨ k = 1 := by omega
      rcases hz with hz | hz <;> subst hz
      · exact h0
      · exact h1
    · intro k hk
      simp at hk
      have hz : k = 0 ∨ k = 1 := by omega
      rcases hz with hz | hz <;> subst hz
      · simp
      · simp
    · intro k hs
      simp only [List.length_cons, List.length_nil]
      by_contra hlt
      push_neg at hlt
      have hz : k = 0 ∨ k = 1 := by omega
      rcases hz with hz | hz <;> subst hz
      · rw [h0] at hs
        exact Bool.false_ne_true hs
      · rw [h1] at hs
        exact Bool.false_ne_true hs
  · rw [Bool.not_eq_true] at h0
    rw [Bool.not_eq_true] at h1
    rw [Bool.not_eq_true] at h2
    refine ⟨by simp, by simp, ?_, ?_, ?_⟩
    · intro k hk
      simp at hk
      have hz : k = 0 ∨ k = 1 ∨ k = 2 := by omega
      rcases hz with hz | hz | hz <;> subst hz
      · exact h0
      · exact h1
      · exact h2
    · intro k hk
      simp at hk
      have hz : k = 0 ∨ k = 1 ∨ k = 2 := by omega
      rcases hz with hz | hz | hz <;> subst hz
      · simp
      · simp
      · simp
    · intro k hs
      simp only [List.length_cons, List.length_nil]
      by_contra hlt
      push_neg at hlt
      have hz : k = 0 ∨ k = 1 ∨ k = 2 := by omega
      rcases hz with hz | hz | hz <;> subst hz
      · rw [h0] at hs
        exact Bool.false_ne_true hs
      · rw [h1] at hs
        exact Bool.false_ne_true hs
      · rw [h2] at hs
        exact Bool.false_ne_true hs

/-- Witness for `claim_C2` on an always-failing backend: all 4 invocations
happen and every one of the first three failed. -/
theorem claim_C2_witness :
    (chapterTrace (fun _ => ⟨false, .nonlist⟩) (fun n => n)).1.length ≤ 4
  ∧ ((fun (_ : Nat) => (⟨false, .nonlist⟩ : ChapterReply)) 2).success = false := by
  refine ⟨(claim_C2 (fun _ => ⟨false, .nonlist⟩) (fun n => n)).1, ?_⟩
  exact (claim_C2 (fun _ => ⟨false, .nonlist⟩) (fun n => n)).2.2.1 2
    (by rw [chapterTrace_closed]; simp)

/-- What one chapter contributes, with a raising block replaced by `[]` (only
used in contexts where the block is proven not to raise). -/
def chapterBlockOk (oracle : Nat → Nat → ChapterReply) (rng : Nat → Nat → Nat)
    (j : Nat) (c : Json) : List String :=
  match chapterPages j c (chapterReplyOf (oracle j) (rng j)) with
  | .ok l => l
  | .error _ => []

theorem chapterPages_isOk (idx : Nat) (c : Json) (r : ChapterReply)
    (h : ∃ t, pySubscript c "chapter_title" = .ok t) :
    ∃ ps, chapterPages idx c r = .ok ps := by
  obtain ⟨t, ht⟩ := h
  obtain ⟨s, res⟩ := r
  unfold chapterPages defaultChapterPage
  rw [ht]
  cases s
  · simp
  · cases res with
    | pylist items =>
      simp only
      cases hstr : stripItems items with
      | some pages => simp [hstr]
      | none => simp [hstr]
    | nonlist => simp
    | raisesExn => simp

/-- The per-chapter page blocks, in chapter order, starting at `enumerate`
counter `idx`. -/
def chapterBlocks (oracle : Nat → Nat → ChapterReply) (rng : Nat → Nat → Nat) :
    List Json → Nat → List (List String)
  | [], _ => []
  | c :: rest, idx =>
    chapterBlockOk oracle rng idx c :: chapterBlocks oracle rng rest (idx + 1)

theorem chapterBlocks_length (oracle : Nat → Nat → ChapterReply)
    (rng : Nat → Nat → Nat) (cs : List Json) :
    ∀ idx, (chapterBlocks oracle rng cs idx).length = cs.length := by
  induction cs with
  | nil => intro idx; rfl
  | cons c rest ih =>
    intro idx
    simp [chapterBlocks, ih (idx + 1)]

theorem chapterBlocks_getD (oracle : Nat → Nat → ChapterReply)
    (rng : Nat → Nat → Nat) (cs : List Json) :
    ∀ idx j, j < cs.length →
      (chapterBlocks oracle rng cs idx).getD j []
        = chapterBlockOk oracle rng (idx + j) (cs.getD j .null) := by
  induction cs with
  | nil =>
    intro idx j hj
    simp at hj
  | cons c rest ih =>
    intro idx j hj
    cases j with
    | zero => simp [chapterBlocks]
    | succ j2 =>
      simp only [chapterBlocks, List.getD_cons_succ]
      rw [ih (idx + 1) j2 (by simpa using Nat.lt_of_succ_lt_succ hj)]
      have he : idx + (j2 + 1) = idx + 1 + j2 := by omega
      rw [he]

theorem storyGo_ok (oracle : Nat → Nat → ChapterReply) (rng : Nat → Nat → Nat)
    (cs : List Json) :
    ∀ (idx : Nat) (acc : List String),
      (∀ j, j < cs.length → ∃ t, pySubscript (cs.getD j .null) "chapter_title" = .ok t) →
      storyGo oracle rng cs idx acc
        = .ok (acc ++ (chapterBlocks oracle rng cs idx).flatten) := by
  induction cs with
  | nil =>
    intro idx acc _
    simp [storyGo, chapterBlocks]
  | cons c rest ih =>
    intro idx acc h
    have h0 : ∃ t, pySubscript c "chapter_title" = .ok t := by
      simpa using h 0 (by simp)
    obtain ⟨ps, hps⟩ := chapterPages_isOk idx c (chapterReplyOf (oracle idx) (rng idx)) h0
    have hb : chapterBlockOk oracle rng idx c = ps := by
      unfold chapterBlockOk
      rw [hps]
    have hrest : ∀ j, j < rest.length →
        ∃ t, pySubscript (rest.getD j .null) "chapter_title" = .ok t := by
      intro j hj
      simpa using h (j + 1) (by simpa using Nat.succ_lt_succ hj)
    simp only [storyGo, hps]
    rw [ih (idx + 1) (acc ++ ps) hrest]
    simp only [chapterBlocks, List.flatten_cons, hb, List.append_assoc]

/-- Claim C3 (confirmed): provided each chapter entry carries a
`chapter_title` (true for every accepted or default outline), the produced
page list is the concatenation of one block per chapter (so one chapter's
terminal failure never aborts the rest), and the block of a chapter whose
every caller-level invocation failed is exactly the two placeholder pages
(`"第N章: <title>"`, `"基于数据的分析内容"`). -/
theorem claim_C3 (oracle : Nat → Nat → ChapterReply) (rng : Nat → Nat → Nat)
    (chapters : List Json)
    (htitle : ∀ j, j < chapters.length →
      ∃ t, pySubscript (chapters.getD j .null) "chapter_title" = .ok t) :
    generate_story_from_outline oracle rng chapters
      = .ok ((chapterBlocks oracle rng chapters 0).flatten)
  ∧ (chapterBlocks oracle rng chapters 0).length = chapters.length
  ∧ (∀ j, j < chapters.length →
      (chapterBlocks oracle rng chapters 0).getD j []
        = chapterBlockOk oracle rng j (chapters.getD j .null))
  ∧ ∀ j t, j < chapters.length →
      pySubscript (chapters.getD j .null) "chapter_title" = .ok t →
      (∀ k, (oracle j k).success = false) →
      chapterBlockOk oracle rng j (chapters.getD j .null)
        = ["第" ++ toString (j + 1) ++ "章: " ++ pyStr t, "基于数据的分析内容"] := by
  refine ⟨?_, chapterBlocks_length oracle rng chapters 0, ?_, ?_⟩
  · have h := storyGo_ok oracle rng chapters 0 [] htitle
    show storyGo oracle rng chapters 0 [] = _
    rw [h]
    simp only [List.nil_append]
  · intro j hj
    have h := chapterBlocks_getD oracle rng chapters 0 j hj
    simpa using h
  · intro j t _ ht hfail
    have hr : (chapterReplyOf (oracle j) (rng j)).success = false := by
      unfold chapterReplyOf
      rw [chapterTrace_closed]
      simp [hfail 0, hfail 1, hfail 2, hfail 3]
    unfold chapterBlockOk chapterPages defaultChapterPage
    rw [hr, ht]
    rfl

/-- Witness for `claim_C3` on a single-chapter outline whose expansion always
fails: the result is exactly the two placeholder pages. -/
theorem claim_C3_witness :
    generate_story_from_outline (fun _ _ => ⟨false, .nonlist⟩) (fun _ _ => 0)
        [.obj [("chapter_title", .str "一"), ("chapter_summary", .str "二")]]
      = .ok ["第1章: 一", "基于数据的分析内容"] := by
  have h := claim_C3 (fun _ _ => ⟨false, .nonlist⟩) (fun _ _ => 0)
      [.obj [("chapter_title", .str "一"), ("chapter_summary", .str "二")]]
      (by
        intro j hj
        have hz : j = 0 := by simpa using hj
        subst hz
        exact ⟨.str "一", rfl⟩)
  rw [h.1]
  have hb := h.2.2.2 0 (.str "一") (by simp) rfl (fun k => rfl)
  simp only [List.getD_cons_zero] at hb
  simp only [chapterBlocks, List.flatten_cons, List.flatten_nil, List.append_nil]
  rw [hb]
  rfl


/-! ## Outline stage: `generate_data_summary` / `generate_outline`
(story_agent.py, lines 52-133)

The LLM client (`writer.call` with a `success_check_fn`) lives in
`mm_story_agent/base.py` / the LLM tool, which is not part of the provided
sources; it is modelled from the spec (§4.2). -/

/-- How the spec's client consumes the acceptance predicate: accepted exactly
when the predicate returns `True`; a rejection — and, since the spec's client
"does not raise", also a raising predicate — triggers re-sampling. -/
def clientAccept (check : Option Json → Except PyError Bool) (raw : Option Json) : Bool :=
  match check raw with
  | .ok true => true
  | .ok false => false
  | .error _ => false

/-- Modelled from the spec: the retry loop of the Validated Generation Client
(`generate(prompt, acceptance_predicate?, max_retries=3, sampling_seed?)`, not
under src/): each attempt invokes the backend once; rejection triggers
re-invocation up to `fuel` additional attempts; terminal failure returns the
last payload with `accepted = false` and never raises. -/
def clientCallGo (backend : Nat → Option Json × Bool)
    (check : Option Json → Except PyError Bool) : Nat → Nat → Option Json × Bool
  | 0, k => ((backend k).1, (backend k).2 && clientAccept check (backend k).1)
  | fuel + 1, k =>
    if (backend k).2 && clientAccept check (backend k).1 then ((backend k).1, true)
    else clientCallGo backend check fuel (k + 1)

/-- Modelled from the spec: one `writer.call(prompt, success_check_fn=...)`
through the Validated Generation Client with its default retry ceiling of 3
additional attempts. -/
def clientCall (backend : Nat → Option Json × Bool)
    (check : Option Json → Except PyError Bool) : Option Json × Bool :=
  clientCallGo backend check 3 0

theorem clientAccept_true (check : Option Json → Except PyError Bool) (raw : Option Json)
    (h : clientAccept check raw = true) : check raw = .ok true := by
  unfold clientAccept at h
  cases hc : check raw with
  | ok b =>
    cases b
    · rw [hc] at h
      simp at h
    · rfl
  | error e =>
    rw [hc] at h
    simp at h

theorem clientCallGo_success (backend : Nat → Option Json × Bool)
    (check : Option Json → Except PyError Bool) :
    ∀ fuel k, (clientCallGo backend check fuel k).2 = true →
      check (clientCallGo backend check fuel k).1 = .ok true := by
  intro fuel
  induction fuel with
  | zero =>
    intro k h
    unfold clientCallGo at h ⊢
    simp only [Bool.and_eq_true] at h
    exact clientAccept_true _ _ h.2
  | succ fuel ih =>
    intro k h
    unfold clientCallGo at h ⊢
    by_cases hc : ((backend k).2 && clientAccept check (backend k).1) = true
    · rw [if_pos hc] at h ⊢
      simp only [Bool.and_eq_true] at hc
      exact clientAccept_true _ _ hc.2
    · rw [if_neg hc] at h ⊢
      exact ih (k + 1) h

/-- The hard-coded default summary of `generate_data_summary` (story_agent.py,
lines 78-82). -/
def defaultSummary : Json :=
  .obj [("data_key_points", .arr [.str "基于提供的数据内容"]),
        ("main_themes", .arr [.str "数据驱动的故事"]),
        ("recommended_story_flow", .str "按照数据逻辑展开")]

/-- Embedding of `generate_data_summary` (story_agent.py, lines 52-82): the
analyzer's reply is abstracted as its parse outcome plus the (unused) success
flag; the bare `except` turns any parse failure into the default summary. -/
def generate_data_summary (analyzerReply : Option Json × Bool) : Json :=
  match analyzerReply.1 with
  | some j => j
  | none => defaultSummary

/-- The hard-coded 3-chapter default outline of `generate_outline`
(story_agent.py, lines 116-132). -/
def defaultOutline : Json :=
  .obj [("story_title", .str "数据驱动的故事"),
        ("story_outline", .arr [
          .obj [("chapter_title", .str "数据概述"),
                ("chapter_summary", .str "介绍数据的基本情况和主要发现")],
          .obj [("chapter_title", .str "关键分析"),
                ("chapter_summary", .str "深入分析数据中的关键信息")],
          .obj [("chapter_title", .str "结论与应用"),
                ("chapter_summary", .str "总结数据启示和实际应用")]])]

/-- Embedding of `generate_outline` (story_agent.py, lines 84-133): the
writer prompt interpolates `data_summary['data_key_points']`,
`data_summary['main_themes']` and `data_summary['recommended_story_flow']`
(lines 101-103), so those subscriptions run — and can raise — before the
client call; on client success the payload is re-parsed (guaranteed to parse
because the acceptance predicate already parsed it), otherwise the default
outline is substituted. -/
def generate_outline (analyzerReply : Option Json × Bool)
    (backend : Nat → Option Json × Bool) : Except PyError Json :=
  let ds := generate_data_summary analyzerReply
  match pySubscript ds "data_key_points" with
  | .error e => .error e
  | .ok _ =>
    match pySubscript ds "main_themes" with
    | .error e => .error e
    | .ok _ =>
      match pySubscript ds "recommended_story_flow" with
      | .error e => .error e
      | .ok _ =>
        match clientCall backend json_parse_outline with
        | (raw, true) =>
          match raw with
          | some j => .ok j
          | none => .error .jsonDecodeError
        | (_, false) => .ok defaultOutline

/-- The story-writer pipeline `call` from the point where the data content is
in hand (story_agent.py, lines 226-232): `generate_outline` followed by
`generate_story_from_outline`, which iterates `outline["story_outline"]`. -/
def qaCall (analyzerReply : Option Json × Bool) (outlineBackend : Nat → Option Json × Bool)
    (oracle : Nat → Nat → ChapterReply) (rng : Nat → Nat → Nat) :
    Except PyError (List String) :=
  match generate_outline analyzerReply outlineBackend with
  | .error e => .error e
  | .ok outline =>
    match pySubscript outline "story_outline" with
    | .error e => .error e
    | .ok so =>
      match pyIter so with
      | .error e => .error e
      | .ok chapters => generate_story_from_outline oracle rng chapters

/-- The summary replies under which the outline-prompt interpolation cannot
raise: the reply fails to parse (default summary substituted) or parses to an
object carrying the three expected summary keys. -/
def SummaryShapeOk (p : Option Json) : Prop :=
  p = none ∨ ∃ fields, p = some (.obj fields)
    ∧ (∃ v, lookupKey fields "data_key_points" = some v)
    ∧ (∃ v, lookupKey fields "main_themes" = some v)
    ∧ (∃ v, lookupKey fields "recommended_story_flow" = some v)

theorem getD_mem {α : Type} (l : List α) (j : Nat) (d : α) (h : j < l.length) :
    l.getD j d ∈ l := by
  induction l generalizing j with
  | nil => simp at h
  | cons a rest ih =>
    cases j with
    | zero => simp
    | succ j2 =>
      simp only [List.getD_cons_succ]
      exact List.mem_cons_of_mem _ (ih j2 (by simpa using Nat.lt_of_succ_lt_succ h))

/-- An accepted outline always exposes an iterable `story_outline` whose
entries all carry a `chapter_title`. -/
theorem accepted_outline_titles (v : Json)
    (h : json_parse_outline (some v) = .ok true) :
    ∃ so chapters, pySubscript v "story_outline" = .ok so
      ∧ pyIter so = .ok chapters
      ∧ ∀ j, j < chapters.length →
          ∃ t, pySubscript (chapters.getD j .null) "chapter_title" = .ok t := by
  obtain ⟨fields, so, chapters, hv, hk, hso, hiter, hch⟩ :=
    (json_parse_outline_accept_iff (some v)).mp h
  have hveq : v = .obj fields := by
    injection hv
  subst hveq
  refine ⟨so, chapters, ?_, hiter, ?_⟩
  · simp [pySubscript, hso]
  · intro j hj
    have hmem := getD_mem chapters j .null hj
    obtain ⟨cf, hcf, hck⟩ := hch _ hmem
    have hcont : (keyList cf).contains "chapter_title" = true := by
      apply sameKeySet_contains_right _ _ _ hck
      simp [List.contains_cons]
    obtain ⟨t, htv⟩ := lookupKey_isSome_of_contains cf "chapter_title" hcont
    refine ⟨t, ?_⟩
    rw [hcf]
    simp [pySubscript, htv]

/-- Claim C4 (corrected): provided the summarize reply either fails to parse
or parses to an object carrying the three summary keys, the summarize stage
substitutes the constant default summary on parse failure, the outline stage
returns a validated outline or the constant 3-chapter default, and the
story-writer call returns an ordered page list with no escaping exception.
(Without that proviso an exception escapes — see the counterexample.) -/
theorem claim_C4 (analyzerReply : Option Json × Bool)
    (outlineBackend : Nat → Option Json × Bool)
    (oracle : Nat → Nat → ChapterReply) (rng : Nat → Nat → Nat)
    (hs : SummaryShapeOk analyzerReply.1) :
    (analyzerReply.1 = none → generate_data_summary analyzerReply = defaultSummary)
  ∧ (∃ outline, generate_outline analyzerReply outlineBackend = .ok outline
      ∧ (json_parse_outline (some outline) = .ok true ∨ outline = defaultOutline))
  ∧ (∃ pages, qaCall analyzerReply outlineBackend oracle rng = .ok pages) := by
  have hsum : ∃ fields, generate_data_summary analyzerReply = .obj fields
      ∧ (∃ v, lookupKey fields "data_key_points" = some v)
      ∧ (∃ v, lookupKey fields "main_themes" = some v)
      ∧ (∃ v, lookupKey fields "recommended_story_flow" = some v) := by
    rcases hs with hn | ⟨fields, hp, h1, h2, h3⟩
    · refine ⟨[("data_key_points", .arr [.str "基于提供的数据内容"]),
        ("main_themes", .arr [.str "数据驱动的故事"]),
        ("recommended_story_flow", .str "按照数据逻辑展开")], ?_, ?_, ?_, ?_⟩
      · unfold generate_data_summary
        rw [hn]
        rfl
      · exact ⟨_, rfl⟩
      · exact ⟨_, rfl⟩
      · exact ⟨_, rfl⟩
    · refine ⟨fields, ?_, h1, h2, h3⟩
      unfold generate_data_summary
      rw [hp]
  obtain ⟨fields, hds, ⟨v1, hv1⟩, ⟨v2, hv2⟩, ⟨v3, hv3⟩⟩ := hsum
  have houtline : ∃ outline, generate_outline analyzerReply outlineBackend = .ok outline
      ∧ (json_parse_outline (some outline) = .ok true ∨ outline = defaultOutline) := by
    unfold generate_outline
    rw [hds]
    simp only [pySubscript, hv1, hv2, hv3]
    rcases hcc : clientCall outlineBackend json_parse_outline with ⟨raw, succ⟩
    cases succ
    · exact ⟨defaultOutline, rfl, Or.inr rfl⟩
    · have hacc : json_parse_outline raw = .ok true := by
        have := clientCallGo_success outlineBackend json_parse_outline 3 0
          (by rw [show clientCallGo outlineBackend json_parse_outline 3 0
                    = clientCall outlineBackend json_parse_outline from rfl, hcc])
        rw [show clientCallGo outlineBackend json_parse_outline 3 0
              = clientCall outlineBackend json_parse_outline from rfl, hcc] at this
        exact this
      cases raw with
      | none => simp [json_parse_outline] at hacc
      | some j => exact ⟨j, rfl, Or.inl hacc⟩
  refine ⟨?_, houtline, ?_⟩
  · intro hn
    unfold generate_data_summary
    rw [hn]
  · obtain ⟨outline, ho, hgood⟩ := houtline
    have hacc : json_parse_outline (some outline) = .ok true := by
      rcases hgood with hgood | hdef
      · exact hgood
      · subst hdef
        rfl
    obtain ⟨so, chapters, hso, hiter, htitles⟩ := accepted_outline_titles outline hacc
    exact ⟨_, by
      simp only [qaCall, ho, hso, hiter]
      exact storyGo_ok oracle rng chapters 0 [] htitles⟩

/-- Witness for `claim_C4`: an unparsable summary reply together with an
always-failing outline backend and always-failing chapter expansion still
produces a page list. -/
theorem claim_C4_witness :
    SummaryShapeOk (none : Option Json)
  ∧ ∃ pages, qaCall (none, false) (fun _ => (none, false))
      (fun _ _ => ⟨false, .nonlist⟩) (fun _ _ => 0) = .ok pages := by
  refine ⟨Or.inl rfl, ?_⟩
  exact (claim_C4 (none, false) (fun _ => (none, false))
    (fun _ _ => ⟨false, .nonlist⟩) (fun _ _ => 0) (Or.inl rfl)).2.2

/-- Counterexample for claim C4 as frozen: if the summarize backend returns
the parseable reply `[]` (a JSON array), the claim says the stage substitutes
the default summary and no exception escapes, but `generate_data_summary`
returns the array as the summary and the prompt interpolation
`data_summary['data_key_points']` raises a `TypeError` that escapes
`generate_outline`. -/
theorem claim_C4_counterexample :
    generate_outline (some (.arr []), true) (fun _ => (none, false))
      = .error .typeError := rfl


/-! ## Fan-out scheduler: `generate_modality_assets` (mm_story_agent.py, lines 26-82)

Each worker is abstracted by what it would write into the managed
`return_dict`: `workerResult m = none` models a worker that crashed before
writing its key, `some r` the raw result object it stored.  The driver itself
is sequential; its observable behaviour is recorded as an event trace
(spawns, joins, result reads, the manifest write) in program order. -/

/-- `self.modalities` (mm_story_agent.py, line 14). -/
def modalities : List String := ["image", "speech"]

/-- The run configuration: explicit `enable_*` flags plus the story
directory.  A flag absent from the list models a key absent from the config
dict. -/
structure RunConfig where
  flags : List (String × Bool)
  storyDir : String

/-- `config.get(f"enable_{modality}", True)` (mm_story_agent.py, line 39). -/
def cfgEnable (cfg : RunConfig) (flag : String) : Bool :=
  match cfg.flags.lookup flag with
  | some b => b
  | none => true

/-- The `enabled_modalities` list built by the scheduler. -/
def enabledModalities (cfg : RunConfig) : List String :=
  modalities.filter (fun m => cfgEnable cfg ("enable_" ++ m))

/-- The scheduler's observable events, in driver program order. -/
inductive Event where
  | spawnWorker (m : String)
  | joinWorker (m : String)
  | readResult (m : String)
  | writeManifest (path content : String)
deriving DecidableEq, Repr

def isWriteEvent : Event → Bool
  | .spawnWorker _ => false
  | .joinWorker _ => false
  | .readResult _ => false
  | .writeManifest _ _ => true

/-- One entry of `script_data["pages"]`. -/
structure PageEntry where
  story : String
  image_prompt : Option Json

/-- The mutable state of the post-join merge loop: the `images` variable and
`script_data["pages"]`. -/
structure MergeState where
  images : Json
  pages : List PageEntry

/-- `script_data["pages"][idx]["image_prompt"] = v` (out-of-range writes do
not occur: `idx` ranges over `range(len(pages))`). -/
def setPrompt : List PageEntry → Nat → Json → List PageEntry
  | [], _, _ => []
  | e :: rest, 0, v => { e with image_prompt := some v } :: rest
  | e :: rest, n + 1, v => e :: setPrompt rest n v

/-- The loop `for idx in range(len(pages)): script_data["pages"][idx]
["image_prompt"] = result["prompts"][idx]` (mm_story_agent.py, lines 74-75):
the first exception aborts the loop (caught by the enclosing `except`),
keeping every mutation made so far. -/
def promptLoopPages (result : Json) : List PageEntry → Nat → Nat → List PageEntry
  | pgs, _, 0 => pgs
  | pgs, idx, rem + 1 =>
    match pySubscript result "prompts" with
    | .error _ => pgs
    | .ok prompts =>
      match pyIndex prompts idx with
      | .error _ => pgs
      | .ok v => promptLoopPages result (setPrompt pgs idx v) (idx + 1) rem

/-- One iteration of `for modality, result in return_dict.items()`
(mm_story_agent.py, lines 70-77): only the `image` entry is acted on;
`images = result["generation_results"]` runs first, then the prompt loop;
any exception is caught and logged, keeping the state reached so far. -/
def mergeEntry (nPages : Nat) (st : MergeState) (entry : String × Json) : MergeState :=
  if entry.1 = "image" then
    match pySubscript entry.2 "generation_results" with
    | .error _ => st
    | .ok imgs =>
      { images := imgs, pages := promptLoopPages entry.2 st.pages 0 nPages }
  else st

mutual
/-- Deterministic serialization of a JSON value, modelling
`json.dump(..., ensure_ascii=False, indent=4)` up to whitespace/escaping
(no claim depends on the exact bytes, only on the serialization being a
function of the value). -/
def renderJson : Json → String
  | .null => "null"
  | .bool b => if b then "true" else "false"
  | .num n => toString n
  | .str s => "\"" ++ s ++ "\""
  | .arr xs => "[" ++ renderJsonList xs ++ "]"
  | .obj fs => "\x7b" ++ renderJsonFields fs ++ "\x7d"

def renderJsonList : List Json → String
  | [] => ""
  | [x] => renderJson x
  | x :: y :: rest => renderJson x ++ ", " ++ renderJsonList (y :: rest)

def renderJsonFields : List (String × Json) → String
  | [] => ""
  | [(k, v)] => "\"" ++ k ++ "\": " ++ renderJson v
  | (k, v) :: kv :: rest =>
    "\"" ++ k ++ "\": " ++ renderJson v ++ ", " ++ renderJsonFields (kv :: rest)
end

/-- Serialization of one page entry: the `image_prompt` key exists only when
it was assigned. -/
def renderPage (e : PageEntry) : String :=
  match e.image_prompt with
  | none => "\x7b\"story\": " ++ renderJson (.str e.story) ++ "\x7d"
  | some p =>
    "\x7b\"story\": " ++ renderJson (.str e.story)
      ++ ", \"image_prompt\": " ++ renderJson p ++ "\x7d"

/-- Serialization of `script_data`. -/
def serializeScript (ps : List PageEntry) : String :=
  "\x7b\"pages\": [" ++ String.intercalate ", " (ps.map renderPage) ++ "]\x7d"

/-- `script_data = {"pages": [{"story": page} for page in pages]}` together
with the initial `images = []` (mm_story_agent.py, lines 27 and 69). -/
def initState (pages : List String) : MergeState :=
  { images := .arr []
  , pages := pages.map (fun p => { story := p, image_prompt := none }) }

/-- The `return_dict` after all joins: one entry per enabled modality whose
worker wrote its key. -/
def assetsTable (cfg : RunConfig) (workerResult : String → Option Json) :
    List (String × Json) :=
  (enabledModalities cfg).filterMap (fun m => (workerResult m).map (fun r => (m, r)))

/-- The merge state after the post-join loop over `return_dict.items()`. -/
def assetsMergedState (cfg : RunConfig) (pages : List String)
    (workerResult : String → Option Json) : MergeState :=
  (assetsTable cfg workerResult).foldl (mergeEntry pages.length) (initState pages)

/-- `story_dir / "script_data.json"` — the fixed manifest path. -/
def assetsManifestPath (cfg : RunConfig) : String :=
  cfg.storyDir ++ "/script_data.json"

/-- The bytes written to the manifest file (mode `"w"`: the write replaces
any previous content). -/
def assetsManifestContent (cfg : RunConfig) (pages : List String)
    (workerResult : String → Option Json) : String :=
  serializeScript (assetsMergedState cfg pages workerResult).pages

/-- The driver's event trace, in program order: spawn every enabled worker,
join every spawned worker, read each table entry, write the manifest. -/
def assetsTrace (cfg : RunConfig) (pages : List String)
    (workerResult : String → Option Json) : List Event :=
  (enabledModalities cfg).map Event.spawnWorker
    ++ (enabledModalities cfg).map Event.joinWorker
    ++ (assetsTable cfg workerResult).map (fun e => Event.readResult e.1)
    ++ [Event.writeManifest (assetsManifestPath cfg)
          (assetsManifestContent cfg pages workerResult)]

/-- The observable outcome of `generate_modality_assets`. -/
structure AssetsRun where
  trace : List Event
  table : List (String × Json)
  images : Json
  scriptPages : List PageEntry
  manifestPath : String
  manifestContent : String

/-- Embedding of `generate_modality_assets` (mm_story_agent.py, lines
26-82). -/
def generate_modality_assets (cfg : RunConfig) (pages : List String)
    (workerResult : String → Option Json) : AssetsRun :=
  { trace := assetsTrace cfg pages workerResult
  , table := assetsTable cfg workerResult
  , images := (assetsMergedState cfg pages workerResult).images
  , scriptPages := (assetsMergedState cfg pages workerResult).pages
  , manifestPath := assetsManifestPath cfg
  , manifestContent := assetsManifestContent cfg pages workerResult }


theorem lookup_none_of_no_key (l : List (String × Json)) (m : String)
    (h : ∀ e ∈ l, e.1 ≠ m) : l.lookup m = none := by
  induction l with
  | nil => rfl
  | cons kv rest ih =>
    obtain ⟨k, v⟩ := kv
    have hk : k ≠ m := h (k, v) (by simp)
    have hbeq : (m == k) = false := beq_eq_false_iff_ne.mpr (fun hh => hk hh.symm)
    simp only [List.lookup, hbeq]
    exact ih (fun e he => h e (List.mem_cons_of_mem _ he))

theorem not_mem_enabled (cfg : RunConfig) (m : String)
    (hm : cfgEnable cfg ("enable_" ++ m) = false) : m ∉ enabledModalities cfg := by
  intro hmem
  have hp := List.of_mem_filter hmem
  rw [hm] at hp
  exact Bool.false_ne_true hp

theorem assetsTable_keys (cfg : RunConfig) (w : String → Option Json) (e : String × Json)
    (he : e ∈ assetsTable cfg w) :
    e.1 ∈ enabledModalities cfg ∧ w e.1 = some e.2 := by
  obtain ⟨a, ha, hfa⟩ := List.mem_filterMap.mp he
  cases hwa : w a with
  | none =>
    rw [hwa] at hfa
    simp at hfa
  | some r =>
    rw [hwa] at hfa
    simp only [Option.map_some'] at hfa
    injection hfa with hfa2
    rw [← hfa2]
    exact ⟨ha, hwa⟩

theorem foldl_mergeEntry_no_image (n : Nat) (l : List (String × Json)) (st : MergeState)
    (h : ∀ e ∈ l, e.1 ≠ "image") : l.foldl (mergeEntry n) st = st := by
  induction l generalizing st with
  | nil => rfl
  | cons a rest ih =>
    have ha : a.1 ≠ "image" := h a (by simp)
    simp only [List.foldl_cons]
    rw [show mergeEntry n st a = st from by unfold mergeEntry; rw [if_neg ha]]
    exact ih st (fun e he => h e (List.mem_cons_of_mem _ he))

/-- Claim C5 (confirmed): an absent `enable_*` flag defaults to enabled; a
disabled modality is not spawned and has no entry in the result table; with
the image modality disabled, no manifest page carries an `image_prompt`. -/
theorem claim_C5 (cfg : RunConfig) (pages : List String)
    (workerResult : String → Option Json) (m : String)
    (hm : cfgEnable cfg ("enable_" ++ m) = false) :
    (∀ f, cfg.flags.lookup f = none → cfgEnable cfg f = true)
  ∧ Event.spawnWorker m ∉ (generate_modality_assets cfg pages workerResult).trace
  ∧ (generate_modality_assets cfg pages workerResult).table.lookup m = none
  ∧ (cfgEnable cfg "enable_image" = false →
      ∀ e ∈ (generate_modality_assets cfg pages workerResult).scriptPages,
        e.image_prompt = none) := by
  have hmen := not_mem_enabled cfg m hm
  refine ⟨?_, ?_, ?_, ?_⟩
  · intro f hf
    unfold cfgEnable
    rw [hf]
  · intro htr
    apply hmen
    have htr2 : Event.spawnWorker m ∈ assetsTrace cfg pages workerResult := htr
    unfold assetsTrace at htr2
    simp only [List.mem_append, List.mem_map, List.mem_singleton] at htr2
    rcases htr2 with ((⟨x, hx, hinj⟩ | ⟨x, hx, hinj⟩) | ⟨e, he, hinj⟩) | hinj
    · cases hinj
      exact hx
    · cases hinj
    · cases hinj
    · cases hinj
  · apply lookup_none_of_no_key
    intro e he h1
    exact hmen (h1 ▸ (assetsTable_keys cfg workerResult e he).1)
  · intro himg e he
    have hniq : ∀ ent ∈ assetsTable cfg workerResult, ent.1 ≠ "image" := by
      intro ent hent h1
      exact not_mem_enabled cfg "image" himg (h1 ▸ (assetsTable_keys cfg workerResult ent hent).1)
    have hst : assetsMergedState cfg pages workerResult = initState pages :=
      foldl_mergeEntry_no_image pages.length _ _ hniq
    have he2 : e ∈ (assetsMergedState cfg pages workerResult).pages := he
    rw [hst] at he2
    obtain ⟨p, _, hpe⟩ := List.mem_map.mp he2
    rw [← hpe]

/-- Witness for `claim_C5`: with `enable_image = false`, the joined result
table has no `image` entry. -/
theorem claim_C5_witness :
    (generate_modality_assets ⟨[("enable_image", false)], "out"⟩ ["a"]
        (fun _ => none)).table.lookup "image" = none :=
  (claim_C5 ⟨[("enable_image", false)], "out"⟩ ["a"] (fun _ => none) "image" rfl).2.2.1


theorem setPrompt_length (l : List PageEntry) (j : Nat) (v : Json) :
    (setPrompt l j v).length = l.length := by
  induction l generalizing j with
  | nil => rfl
  | cons e rest ih =>
    cases j with
    | zero => rfl
    | succ j2 => simp [setPrompt, ih j2]

theorem setPrompt_getD (l : List PageEntry) (j : Nat) (v : Json) :
    ∀ i d, (setPrompt l j v).getD i d
      = if i = j ∧ j < l.length then
          { l.getD i d with image_prompt := some v }
        else l.getD i d := by
  induction l generalizing j with
  | nil =>
    intro i d
    simp [setPrompt]
  | cons e rest ih =>
    intro i d
    cases j with
    | zero =>
      cases i with
      | zero => simp [setPrompt]
      | succ i2 => simp [setPrompt, List.getD_cons_succ]
    | succ j2 =>
      cases i with
      | zero => simp [setPrompt]
      | succ i2 =>
        simp only [setPrompt, List.getD_cons_succ, List.length_cons]
        rw [ih j2 i2 d]
        split_ifs with h1 h2 h2 <;> first | rfl | omega

theorem promptLoopPages_subscript_error (result : Json) (er : PyError)
    (hp : pySubscript result "prompts" = .error er) :
    ∀ rem pgs idx, promptLoopPages result pgs idx rem = pgs := by
  intro rem pgs idx
  cases rem with
  | zero => rfl
  | succ rem2 => simp only [promptLoopPages, hp]

theorem promptLoopPages_getD (result : Json) (ps : List Json)
    (hp : pySubscript result "prompts" = .ok (.arr ps)) :
    ∀ rem pgs idx i d,
      (promptLoopPages result pgs idx rem).getD i d
        = if idx ≤ i ∧ i < idx + rem ∧ i < ps.length ∧ i < pgs.length then
            { pgs.getD i d with image_prompt := some (ps.getD i .null) }
          else pgs.getD i d := by
  intro rem
  induction rem with
  | zero =>
    intro pgs idx i d
    rw [if_neg (by omega)]
    rfl
  | succ rem ih =>
    intro pgs idx i d
    cases hg : ps.get? idx with
    | none =>
      have hlen : ps.length ≤ idx := by
        by_contra hge
        push_neg at hge
        rcases List.get?_eq_some.mpr ⟨hge, rfl⟩ with hsome
        rw [hg] at hsome
        cases hsome
      have hg2 : ps[idx]? = none := by
        rw [← List.get?_eq_getElem?]
        exact hg
      have hidx : pyIndex (.arr ps) idx = .error .indexError := by
        simp [pyIndex, hg, hg2]
      simp only [promptLoopPages, hp, hidx]
      rw [if_neg (by omega)]
    | some v =>
      have hlt : idx < ps.length := by
        by_contra hge
        push_neg at hge
        rw [List.get?_eq_none.mpr hge] at hg
        cases hg
      have hgetD : ps.getD idx .null = v := by
        rw [List.getD_eq_getElem?_getD, ← List.get?_eq_getElem?, hg]
        rfl
      have hg2 : ps[idx]? = some v := by
        rw [← List.get?_eq_getElem?]
        exact hg
      have hidx : pyIndex (.arr ps) idx = .ok v := by
        simp [pyIndex, hg, hg2]
      simp only [promptLoopPages, hp, hidx]
      rw [ih (setPrompt pgs idx v) (idx + 1) i d]
      rw [setPrompt_length, setPrompt_getD]
      by_cases hpl : i < pgs.length
      · by_cases hceq : i = idx
        · rw [if_neg (by omega)]
          rw [if_pos (show i = idx ∧ idx < pgs.length by omega)]
          rw [if_pos (show idx ≤ i ∧ i < idx + (rem + 1) ∧ i < ps.length ∧ i < pgs.length
            by omega)]
          rw [show ps.getD i .null = v from by rw [hceq]; exact hgetD]
        · by_cases hc3 : idx ≤ i ∧ i < idx + (rem + 1) ∧ i < ps.length ∧ i < pgs.length
          · rw [if_pos (by omega)]
            rw [if_neg (fun hc => hceq hc.1)]
            rw [if_pos hc3]
          · rw [if_neg (by omega)]
            rw [if_neg (fun hc => hceq hc.1)]
            rw [if_neg hc3]
      · rw [if_neg (by omega)]
        rw [if_neg (show ¬(i = idx ∧ idx < pgs.length) by omega)]
        rw [if_neg (by omega)]

theorem enabledModalities_cases (cfg : RunConfig) :
    enabledModalities cfg
      = if cfgEnable cfg "enable_image" then
          if cfgEnable cfg "enable_speech" then ["image", "speech"] else ["image"]
        else
          if cfgEnable cfg "enable_speech" then ["speech"] else [] := by
  unfold enabledModalities modalities
  have e1 : ("enable_" ++ "image" : String) = "enable_image" := rfl
  have e2 : ("enable_" ++ "speech" : String) = "enable_speech" := rfl
  simp only [List.filter_cons, List.filter_nil, e1, e2]
  cases h1 : cfgEnable cfg "enable_image" <;> cases h2 : cfgEnable cfg "enable_speech" <;>
    simp

theorem assetsMergedState_eq (cfg : RunConfig) (pages : List String)
    (w : String → Option Json) :
    assetsMergedState cfg pages w
      = match (assetsTable cfg w).lookup "image" with
        | none => initState pages
        | some r => mergeEntry pages.length (initState pages) ("image", r) := by
  have hsp : ∀ (st : MergeState) (r : Json), mergeEntry pages.length st ("speech", r) = st := by
    intro st r
    unfold mergeEntry
    rw [if_neg (by simp)]
  unfold assetsMergedState assetsTable
  rw [enabledModalities_cases]
  cases h1 : cfgEnable cfg "enable_image" <;> cases h2 : cfgEnable cfg "enable_speech"
  · simp [List.lookup]
  · cases hw2 : w "speech" <;> simp [List.lookup, hw2, hsp]
  · cases hw1 : w "image" <;> simp [List.lookup, hw1]
  · cases hw1 : w "image" <;> cases hw2 : w "speech" <;>
      simp [List.lookup, hw1, hw2, hsp]

theorem initState_pages_length (pages : List String) :
    (initState pages).pages.length = pages.length := by
  simp [initState]

theorem initState_prompt_none (pages : List String) :
    ∀ e ∈ (initState pages).pages, e.image_prompt = none := by
  intro e he
  obtain ⟨p, _, hpe⟩ := List.mem_map.mp he
  rw [← hpe]

theorem initState_getD_prompt (pages : List String) (i : Nat) (d : PageEntry)
    (h : i < pages.length) :
    ((initState pages).pages.getD i d).image_prompt = none := by
  apply initState_prompt_none
  apply getD_mem
  rw [initState_pages_length]
  exact h


/-- Claim C6 (corrected): the merge of the image result never raises and the
manifest write always happens (the write is the final driver event); a
missing `image` entry, or one whose `generation_results` extraction fails,
leaves the image list empty and every page without `image_prompt`; but once
`generation_results` extracts, the extracted list is returned even if the
prompt merge then fails partway — with a `prompts` list shorter than the
pages, pages below the prompt count receive their prompt and only the pages
beyond it are left without one. -/
theorem claim_C6 (cfg : RunConfig) (pages : List String)
    (workerResult : String → Option Json) :
    ((generate_modality_assets cfg pages workerResult).trace.getLast?
        = some (.writeManifest (generate_modality_assets cfg pages workerResult).manifestPath
            (generate_modality_assets cfg pages workerResult).manifestContent))
  ∧ ((generate_modality_assets cfg pages workerResult).table.lookup "image" = none →
      (generate_modality_assets cfg pages workerResult).images = .arr []
        ∧ ∀ e ∈ (generate_modality_assets cfg pages workerResult).scriptPages,
            e.image_prompt = none)
  ∧ (∀ r, (generate_modality_assets cfg pages workerResult).table.lookup "image" = some r →
      (∀ er, pySubscript r "generation_results" = .error er →
        (generate_modality_assets cfg pages workerResult).images = .arr []
          ∧ ∀ e ∈ (generate_modality_assets cfg pages workerResult).scriptPages,
              e.image_prompt = none)
      ∧ (∀ imgs, pySubscript r "generation_results" = .ok imgs →
          (generate_modality_assets cfg pages workerResult).images = imgs
        ∧ (∀ er, pySubscript r "prompts" = .error er →
            ∀ e ∈ (generate_modality_assets cfg pages workerResult).scriptPages,
              e.image_prompt = none)
        ∧ (∀ ps, pySubscript r "prompts" = .ok (.arr ps) →
            ∀ i d, i < pages.length →
              ((generate_modality_assets cfg pages workerResult).scriptPages.getD i d).image_prompt
                = if i < ps.length then some (ps.getD i .null) else none))) := by
  refine ⟨?_, ?_, ?_⟩
  · show (assetsTrace cfg pages workerResult).getLast? = _
    unfold assetsTrace
    exact List.getLast?_concat _
  · intro hlk
    have hlk2 : (assetsTable cfg workerResult).lookup "image" = none := hlk
    have h0 := assetsMergedState_eq cfg pages workerResult
    rw [hlk2] at h0
    have h1 : assetsMergedState cfg pages workerResult = initState pages := h0
    constructor
    · show (assetsMergedState cfg pages workerResult).images = _
      rw [h1]
      rfl
    · intro e he
      have he2 : e ∈ (assetsMergedState cfg pages workerResult).pages := he
      rw [h1] at he2
      exact initState_prompt_none pages e he2
  · intro r hlk
    have hlk2 : (assetsTable cfg workerResult).lookup "image" = some r := hlk
    have h0 := assetsMergedState_eq cfg pages workerResult
    rw [hlk2] at h0
    have h1 : assetsMergedState cfg pages workerResult
        = mergeEntry pages.length (initState pages) ("image", r) := h0
    constructor
    · intro er hger
      have h2 : mergeEntry pages.length (initState pages) ("image", r) = initState pages := by
        unfold mergeEntry
        rw [if_pos rfl, hger]
      constructor
      · show (assetsMergedState cfg pages workerResult).images = _
        rw [h1, h2]
        rfl
      · intro e he
        have he2 : e ∈ (assetsMergedState cfg pages workerResult).pages := he
        rw [h1, h2] at he2
        exact initState_prompt_none pages e he2
    · intro imgs hok
      have h2 : mergeEntry pages.length (initState pages) ("image", r)
          = { images := imgs
            , pages := promptLoopPages r (initState pages).pages 0 pages.length } := by
        unfold mergeEntry
        rw [if_pos rfl, hok]
      refine ⟨?_, ?_, ?_⟩
      · show (assetsMergedState cfg pages workerResult).images = _
        rw [h1, h2]
      · intro er hper e he
        have he2 : e ∈ (assetsMergedState cfg pages workerResult).pages := he
        rw [h1, h2] at he2
        rw [promptLoopPages_subscript_error r er hper] at he2
        exact initState_prompt_none pages e he2
      · intro ps hps i d hi
        have hl0 : (initState pages).pages.length = pages.length := initState_pages_length pages
        show ((assetsMergedState cfg pages workerResult).pages.getD i d).image_prompt = _
        rw [h1, h2]
        rw [promptLoopPages_getD r ps hps pages.length (initState pages).pages 0 i d]
        by_cases hips : i < ps.length
        · rw [if_pos (by omega), if_pos hips]
        · rw [if_neg (by omega), if_neg hips]
          exact initState_getD_prompt pages i d hi

/-- Witness for `claim_C6`: a run with no image worker result still has empty
images and a prompt-free manifest. -/
theorem claim_C6_witness :
    (generate_modality_assets ⟨[], "out"⟩ ["a"] (fun _ => none)).images = .arr []
  ∧ ∀ e ∈ (generate_modality_assets ⟨[], "out"⟩ ["a"] (fun _ => none)).scriptPages,
      e.image_prompt = none :=
  (claim_C6 ⟨[], "out"⟩ ["a"] (fun _ => none)).2.1 rfl

/-- The run from the counterexample for claim C6: two pages, an image result
whose `prompts` list has only one element. -/
def c6run : AssetsRun :=
  generate_modality_assets ⟨[], "out"⟩ ["a", "b"]
    (fun m => if m = "image"
      then some (.obj [("generation_results", .arr [.str "img1"]),
        ("prompts", .arr [.str "p1"])])
      else none)

/-- Counterexample for claim C6 as frozen: with an image entry whose
`prompts` list (length 1) is shorter than the page list (length 2), the
claim says the step treats the run as having no images (empty image list, no
`image_prompt` fields), but the code returns the already-extracted image
list and merges the first prompt before the `IndexError` aborts the loop. -/
theorem claim_C6_counterexample :
    c6run.images = .arr [.str "img1"]
  ∧ (c6run.scriptPages.getD 0 ⟨"", none⟩).image_prompt = some (.str "p1")
  ∧ (c6run.scriptPages.getD 1 ⟨"", none⟩).image_prompt = none :=
  ⟨rfl, rfl, rfl⟩

/-- Claim C7 (confirmed): every spawned worker is joined, and every join
event precedes — in driver program order — every read of the result table
and the manifest write. -/
theorem claim_C7 (cfg : RunConfig) (pages : List String)
    (workerResult : String → Option Json) :
    (∀ m, Event.spawnWorker m ∈ (generate_modality_assets cfg pages workerResult).trace →
        Event.joinWorker m ∈ (generate_modality_assets cfg pages workerResult).trace)
  ∧ (∀ i j m, (generate_modality_assets cfg pages workerResult).trace.get? i
        = some (.joinWorker m) →
      ((∃ m2, (generate_modality_assets cfg pages workerResult).trace.get? j
            = some (.readResult m2))
        ∨ (∃ p c, (generate_modality_assets cfg pages workerResult).trace.get? j
            = some (.writeManifest p c))) →
      i < j) := by
  constructor
  · intro m hsp
    have hsp2 : Event.spawnWorker m ∈ assetsTrace cfg pages workerResult := hsp
    unfold assetsTrace at hsp2
    have hmem : m ∈ enabledModalities cfg := by
      simp only [List.mem_append, List.mem_map, List.mem_singleton] at hsp2
      rcases hsp2 with ((⟨x, hx, hinj⟩ | ⟨x, hx, hinj⟩) | ⟨e, he, hinj⟩) | hinj
      · cases hinj
        exact hx
      · cases hinj
      · cases hinj
      · cases hinj
    show Event.joinWorker m ∈ assetsTrace cfg pages workerResult
    unfold assetsTrace
    simp only [List.mem_append, List.mem_map, List.mem_singleton]
    exact Or.inl (Or.inl (Or.inr ⟨m, hmem, rfl⟩))
  · intro i j m hji hrw
    have hT : (generate_modality_assets cfg pages workerResult).trace
        = ((enabledModalities cfg).map Event.spawnWorker
              ++ (enabledModalities cfg).map Event.joinWorker)
          ++ ((assetsTable cfg workerResult).map (fun e => Event.readResult e.1)
              ++ [Event.writeManifest (assetsManifestPath cfg)
                    (assetsManifestContent cfg pages workerResult)]) := by
      show assetsTrace cfg pages workerResult = _
      unfold assetsTrace
      rw [List.append_assoc]
    rw [hT] at hji hrw
    have hi : i < ((enabledModalities cfg).map Event.spawnWorker
        ++ (enabledModalities cfg).map Event.joinWorker).length := by
      by_contra hge
      push_neg at hge
      rw [List.get?_append_right hge] at hji
      have hmem := List.get?_mem hji
      simp only [List.mem_append, List.mem_map, List.mem_singleton] at hmem
      rcases hmem with ⟨e, he, hinj⟩ | hinj
      · cases hinj
      · cases hinj
    have hj : ((enabledModalities cfg).map Event.spawnWorker
        ++ (enabledModalities cfg).map Event.joinWorker).length ≤ j := by
      by_contra hlt
      push_neg at hlt
      rcases hrw with ⟨m2, hr⟩ | ⟨p, c, hr⟩
      · rw [List.get?_append hlt] at hr
        have hmem := List.get?_mem hr
        simp only [List.mem_append, List.mem_map] at hmem
        rcases hmem with ⟨x, hx, hinj⟩ | ⟨x, hx, hinj⟩
        · cases hinj
        · cases hinj
      · rw [List.get?_append hlt] at hr
        have hmem := List.get?_mem hr
        simp only [List.mem_append, List.mem_map] at hmem
        rcases hmem with ⟨x, hx, hinj⟩ | ⟨x, hx, hinj⟩
        · cases hinj
        · cases hinj
    omega

/-- Witness for `claim_C7` on a concrete run (both modalities enabled, only
the speech worker wrote a result): the `join image` event at index 2 strictly
precedes the result read at index 4. -/
theorem claim_C7_witness :
    (generate_modality_assets ⟨[], "out"⟩ []
        (fun m => if m = "speech" then some .null else none)).trace.get? 2
      = some (.joinWorker "image")
  ∧ (2 : Nat) < 4 := by
  refine ⟨rfl, ?_⟩
  exact (claim_C7 ⟨[], "out"⟩ [] (fun m => if m = "speech" then some .null else none)).2
    2 4 "image" rfl (Or.inl ⟨"speech", rfl⟩)

/-- Claim C8 (confirmed): the manifest bytes depend only on the page list
and the per-modality results (two runs whose workers return the same results
produce byte-identical content), the manifest path is the fixed
`<story_dir>/script_data.json`, and exactly one write happens per run (mode
`"w"`, so a re-run overwrites the file with that content). -/
theorem claim_C8 (cfg : RunConfig) (pages : List String)
    (w1 w2 : String → Option Json)
    (h : ∀ m ∈ enabledModalities cfg, w1 m = w2 m) :
    (generate_modality_assets cfg pages w1).manifestContent
      = (generate_modality_assets cfg pages w2).manifestContent
  ∧ (generate_modality_assets cfg pages w1).manifestPath = cfg.storyDir ++ "/script_data.json"
  ∧ ((generate_modality_assets cfg pages w1).trace.countP isWriteEvent) = 1 := by
  have htab : assetsTable cfg w1 = assetsTable cfg w2 := by
    unfold assetsTable
    exact List.filterMap_congr (fun m hm => by rw [h m hm])
  refine ⟨?_, rfl, ?_⟩
  · show assetsManifestContent cfg pages w1 = assetsManifestContent cfg pages w2
    unfold assetsManifestContent assetsMergedState
    rw [htab]
  · show (assetsTrace cfg pages w1).countP isWriteEvent = 1
    unfold assetsTrace
    simp only [List.countP_append, List.countP_map, Function.comp]
    rw [List.countP_eq_zero.mpr (fun a _ => by simp [isWriteEvent]),
      List.countP_eq_zero.mpr (fun a _ => by simp [isWriteEvent]),
      List.countP_eq_zero.mpr (fun a _ => by simp [isWriteEvent])]
    rfl

/-- Witness for `claim_C8` with both modalities disabled: two runs whose
workers disagree everywhere (vacuously agreeing on the empty enabled set)
still produce byte-identical manifests. -/
theorem claim_C8_witness :
    (generate_modality_assets ⟨[("enable_image", false), ("enable_speech", false)], "o"⟩
        ["a"] (fun _ => none)).manifestContent
      = (generate_modality_assets ⟨[("enable_image", false), ("enable_speech", false)], "o"⟩
          ["a"] (fun _ => some .null)).manifestContent := by
  refine ((claim_C8 ⟨[("enable_image", false), ("enable_speech", false)], "o"⟩
    ["a"] (fun _ => none) (fun _ => some .null) ?_).1)
  intro m hm
  have hz : enabledModalities ⟨[("enable_image", false), ("enable_speech", false)], "o"⟩
      = [] := rfl
  rw [hz] at hm
  cases hm


/-! ## Speech worker: `CosyVoiceAgent.call` (speech_agent.py, lines 160-218)

The synthesizer construction and the per-page synthesis calls are external
I/O; they are abstracted by error oracles (`none` = the call returns
normally, `some msg` = it raises with that message). -/

/-- `supported_voices` (speech_agent.py, line 182). -/
def supportedVoices : List String := ["xiaoyun", "xiaogang", "xiaowei", "xiaoxiao"]

/-- `voice = params.get("voice", "xiaoyun")` plus the supported-voice
fallback (speech_agent.py, lines 183-187). -/
def chooseVoice (requested : Option String) : String :=
  let v := requested.getD "xiaoyun"
  if supportedVoices.contains v then v else "xiaoyun"

/-- `not page or len(page.strip()) == 0` on a string page. -/
def isBlankPage (s : String) : Bool := s.trim = ""

/-- The synthesis loop over the pages (speech_agent.py, lines 189-201):
blank pages are skipped without a synthesis call; otherwise the synthesizer
is invoked (`synthErr idx = some msg` models `tts_agent.call` raising).
Returns the indices synthesis was invoked on and the first raised error,
which aborts the loop. -/
def speechLoopGo (synthErr : Nat → Option String) :
    List String → Nat → List Nat → List Nat × Option String
  | [], _, acc => (acc, none)
  | page :: rest, idx, acc =>
    if isBlankPage page then speechLoopGo synthErr rest (idx + 1) acc
    else
      match synthErr idx with
      | some e => (acc ++ [idx], some e)
      | none => speechLoopGo synthErr rest (idx + 1) (acc ++ [idx])

/-- The failure dict built by the `except` handler (speech_agent.py, lines
212-218). -/
def speechFailed (msg : String) : Json :=
  .obj [("modality", .str "speech"), ("status", .str "failed"), ("error", .str msg)]

/-- The success dict (speech_agent.py, lines 204-210): `generated_files` is
`len(pages)` — the full page count. -/
def speechSuccess (nPages : Nat) (voice : String) : Json :=
  .obj [("modality", .str "speech"), ("status", .str "success"),
        ("generated_files", .num nPages), ("tts_type", .str "standard"),
        ("voice", .str voice)]

/-- Embedding of `CosyVoiceAgent.call` on string pages: `ttsInitErr` models
`StandardTTSSynthesizer(self.cfg)` raising in its constructor (the
credential `ValueError`), `synthErr` the per-page synthesis call raising
(backend/endpoint fault).  Both sit inside the `try`, whose handler returns
the failed dict.  The second component is the list of page indices synthesis
was invoked on. -/
def cosyVoiceCall (pages : List String) (requestedVoice : Option String)
    (ttsInitErr : Option String) (synthErr : Nat → Option String) : Json × List Nat :=
  match ttsInitErr with
  | some e => (speechFailed e, [])
  | none =>
    let voice := chooseVoice requestedVoice
    match speechLoopGo synthErr pages 0 [] with
    | (invoked, some e) => (speechFailed e, invoked)
    | (invoked, none) => (speechSuccess pages.length voice, invoked)

/-- `call_modality_agent` (mm_story_agent.py, lines 16-18): the worker
records the agent's result in the shared table under the modality key. -/
def call_modality_agent (modality : String) (result : Json)
    (table : List (String × Json)) : List (String × Json) :=
  table ++ [(modality, result)]

/-- Claim C9 (confirmed): whenever the synthesizer constructor or any
synthesis call raises, the speech worker's result is the failed dict —
modality `speech`, status `failed`, the error message — and
`call_modality_agent` records it in the table under the `speech` key instead
of propagating the exception (the embedded `cosyVoiceCall` is total). -/
theorem claim_C9 (pages : List String) (requestedVoice : Option String)
    (ttsInitErr : Option String) (synthErr : Nat → Option String)
    (table : List (String × Json)) (msg : String)
    (hfail : ttsInitErr = some msg
      ∨ (ttsInitErr = none ∧ (speechLoopGo synthErr pages 0 []).2 = some msg)) :
    pySubscript (cosyVoiceCall pages requestedVoice ttsInitErr synthErr).1 "modality"
      = .ok (.str "speech")
  ∧ pySubscript (cosyVoiceCall pages requestedVoice ttsInitErr synthErr).1 "status"
      = .ok (.str "failed")
  ∧ pySubscript (cosyVoiceCall pages requestedVoice ttsInitErr synthErr).1 "error"
      = .ok (.str msg)
  ∧ ("speech", (cosyVoiceCall pages requestedVoice ttsInitErr synthErr).1)
      ∈ call_modality_agent "speech"
          (cosyVoiceCall pages requestedVoice ttsInitErr synthErr).1 table := by
  have hres : (cosyVoiceCall pages requestedVoice ttsInitErr synthErr).1
      = speechFailed msg := by
    rcases hfail with hinit | ⟨hinit, hloop⟩
    · rw [hinit]
      rfl
    · rcases hsl : speechLoopGo synthErr pages 0 [] with ⟨invoked, err⟩
      rw [hsl] at hloop
      simp only at hloop
      subst hloop
      rw [hinit]
      show (match speechLoopGo synthErr pages 0 [] with
        | (invoked, some e) => (speechFailed e, invoked)
        | (invoked, none) =>
          (speechSuccess pages.length (chooseVoice requestedVoice), invoked)).1 = _
      rw [hsl]
  rw [hres]
  refine ⟨rfl, rfl, rfl, ?_⟩
  unfold call_modality_agent
  exact List.mem_append_right _ (by simp)

/-- Witness for `claim_C9`: a worker whose synthesizer constructor raises
(e.g. missing credentials) yields the failed dict with that message. -/
theorem claim_C9_witness :
    pySubscript (cosyVoiceCall ["a"] none (some "boom") (fun _ => none)).1 "status"
      = .ok (.str "failed")
  ∧ pySubscript (cosyVoiceCall ["a"] none (some "boom") (fun _ => none)).1 "error"
      = .ok (.str "boom") := by
  have h := claim_C9 ["a"] none (some "boom") (fun _ => none) [] "boom" (Or.inl rfl)
  exact ⟨h.2.1, h.2.2.1⟩

/-- The indices of the non-blank pages, in order, starting at `idx` — the
pages synthesis actually runs on. -/
def nonBlankIndices : List String → Nat → List Nat
  | [], _ => []
  | p :: rest, idx =>
    if isBlankPage p then nonBlankIndices rest (idx + 1)
    else idx :: nonBlankIndices rest (idx + 1)

theorem mem_nonBlankIndices (j : Nat) :
    ∀ (ps : List String) (idx : Nat),
      j ∈ nonBlankIndices ps idx ↔
        ∃ k, k < ps.length ∧ j = idx + k ∧ isBlankPage (ps.getD k "") = false := by
  intro ps
  induction ps with
  | nil =>
    intro idx
    simp [nonBlankIndices]
  | cons p rest ih =>
    intro idx
    cases hb : isBlankPage p with
    | true =>
      simp only [nonBlankIndices, hb, if_true]
      rw [ih (idx + 1)]
      constructor
      · rintro ⟨k, hk, hj, hnb⟩
        refine ⟨k + 1, by simpa using Nat.succ_lt_succ hk, by omega, ?_⟩
        simpa using hnb
      · rintro ⟨k, hk, hj, hnb⟩
        cases k with
        | zero =>
          rw [List.getD_cons_zero] at hnb
          rw [hb] at hnb
          cases hnb
        | succ k2 =>
          refine ⟨k2, by simpa using Nat.lt_of_succ_lt_succ hk, by omega, ?_⟩
          simpa using hnb
    | false =>
      simp only [nonBlankIndices, hb, Bool.false_eq_true, if_false, List.mem_cons]
      rw [ih (idx + 1)]
      constructor
      · rintro (rfl | ⟨k, hk, hj, hnb⟩)
        · exact ⟨0, by simp, by omega, by simpa using hb⟩
        · refine ⟨k + 1, by simpa using Nat.succ_lt_succ hk, by omega, ?_⟩
          simpa using hnb
      · rintro ⟨k, hk, hj, hnb⟩
        cases k with
        | zero =>
          left
          omega
        | succ k2 =>
          right
          refine ⟨k2, by simpa using Nat.lt_of_succ_lt_succ hk, by omega, ?_⟩
          simpa using hnb

theorem speechLoopGo_ok (synthErr : Nat → Option String) :
    ∀ (ps : List String) (idx : Nat) (acc : List Nat),
      (∀ j, j < ps.length → isBlankPage (ps.getD j "") = false → synthErr (idx + j) = none) →
      speechLoopGo synthErr ps idx acc = (acc ++ nonBlankIndices ps idx, none) := by
  intro ps
  induction ps with
  | nil =>
    intro idx acc _
    simp [speechLoopGo, nonBlankIndices]
  | cons p rest ih =>
    intro idx acc h
    have hrest : ∀ j, j < rest.length →
        isBlankPage (rest.getD j "") = false → synthErr (idx + 1 + j) = none := by
      intro j hj hnb
      have := h (j + 1) (by simpa using Nat.succ_lt_succ hj) (by simpa using hnb)
      rw [show idx + 1 + j = idx + (j + 1) from by omega]
      exact this
    cases hb : isBlankPage p with
    | true =>
      simp only [speechLoopGo, hb, if_true, nonBlankIndices]
      exact ih (idx + 1) acc hrest
    | false =>
      have hsz : synthErr idx = none := by
        have := h 0 (by simp) (by simpa using hb)
        simpa using this
      simp only [speechLoopGo, hb, Bool.false_eq_true, if_false, hsz, nonBlankIndices]
      rw [ih (idx + 1) (acc ++ [idx]) hrest]
      simp

/-- Claim C10 (confirmed): when no synthesis call fails, the speech worker
invokes synthesis exactly on the non-blank pages (blank pages are skipped
without error), yet the success result reports `generated_files` equal to
the total page count, counting the skipped pages. -/
theorem claim_C10 (pages : List String) (requestedVoice : Option String)
    (synthErr : Nat → Option String)
    (hok : ∀ j, j < pages.length →
      isBlankPage (pages.getD j "") = false → synthErr j = none) :
    (cosyVoiceCall pages requestedVoice none synthErr).2 = nonBlankIndices pages 0
  ∧ (∀ j, j ∈ nonBlankIndices pages 0 ↔
      (j < pages.length ∧ isBlankPage (pages.getD j "") = false))
  ∧ pySubscript (cosyVoiceCall pages requestedVoice none synthErr).1 "status"
      = .ok (.str "success")
  ∧ pySubscript (cosyVoiceCall pages requestedVoice none synthErr).1 "generated_files"
      = .ok (.num pages.length) := by
  have hloop := speechLoopGo_ok synthErr pages 0 []
    (fun j hj hnb => by
      rw [Nat.zero_add]
      exact hok j hj hnb)
  have hcall : cosyVoiceCall pages requestedVoice none synthErr
      = (speechSuccess pages.length (chooseVoice requestedVoice),
          nonBlankIndices pages 0) := by
    show (match speechLoopGo synthErr pages 0 [] with
      | (invoked, some e) => (speechFailed e, invoked)
      | (invoked, none) =>
        (speechSuccess pages.length (chooseVoice requestedVoice), invoked)) = _
    rw [hloop]
    simp
  rw [hcall]
  refine ⟨rfl, ?_, rfl, rfl⟩
  intro j
  rw [mem_nonBlankIndices j pages 0]
  constructor
  · rintro ⟨k, hk, hj, hnb⟩
    refine ⟨by omega, ?_⟩
    rw [show j = k from by omega]
    exact hnb
  · rintro ⟨hj, hnb⟩
    exact ⟨j, hj, by omega, hnb⟩

/-- Witness for `claim_C10`: three pages, two of them blank — synthesis runs
only on page index 1, yet `generated_files` reports 3. -/
theorem claim_C10_witness :
    (cosyVoiceCall ["", "hello", " "] (some "weird") none (fun _ => none)).2
      = nonBlankIndices ["", "hello", " "] 0
  ∧ pySubscript (cosyVoiceCall ["", "hello", " "] (some "weird") none (fun _ => none)).1
      "generated_files" = .ok (.num 3) := by
  have h := claim_C10 ["", "hello", " "] (some "weird") (fun _ => none)
    (fun j hj hnb => rfl)
  exact ⟨h.1, h.2.2.2⟩

end MMStory
